import Mathlib

/-!
Shallow embedding of `src/main.py` (candlestick_retriever).

The embedding models:
- one candle row (`Candle`) with its integer `open_time` key and the remaining
  numeric fields abstracted as a list of integers;
- a pandas dataframe (`DF`) as a list of column labels together with a list of
  rows, so that the failure frame `pd.DataFrame([])` -- which has no columns at
  all -- is distinguishable from a frame built with `columns=LABELS`;
- `get_batch` as a function over a stream of network outcomes (one outcome per
  attempted HTTP request), returning the dataframe together with the number of
  cooldown sleeps taken and the trace of request parameters issued;
- the pagination `while` loop of `all_candles_to_csv` as a fuel-indexed
  recursive function returning the appended batches, the final cursor and the
  trace of `startTime` values of the fetch calls issued;
- `all_candles_to_csv` itself over an abstract disk state
  (`Option (List Candle)`: `none` models `FileNotFoundError`), an abstract
  fetch oracle, and a wall-clock value in milliseconds.

Wall-clock time and the column maximum are modelled over `Nat` (milliseconds
since the epoch).  The pandas expression `df['open_time'].max()` is modelled as
an `Option Nat`: `none` when the `'open_time'` column is absent (a `KeyError`
in Python); the surrounding loop only evaluates it on non-empty frames.
-/

/-- One candlestick row.  `open_time` is the integer millisecond key used by
all the merge logic; the remaining eleven fields of the source's `LABELS` row
are abstracted as an opaque payload list. -/
structure Candle where
  open_time : Nat
  rest : List Int
deriving DecidableEq, Repr

/-- The column labels of `main.py`. -/
def LABELS : List String :=
  ["open_time", "open", "high", "low", "close", "volume", "close_time",
   "quote_asset_volume", "number_of_trades", "taker_buy_base_asset_volume",
   "taker_buy_quote_asset_volume", "ignore"]

/-- A pandas dataframe: its column labels and its rows. -/
structure DF where
  cols : List String
  rows : List Candle
deriving DecidableEq, Repr

/-- `pd.DataFrame([])`: the frame returned by `get_batch` on a non-OK
response.  It has no columns and no rows. -/
def DF.emptyFrame : DF := ⟨[], []⟩

/-- pandas `.empty`: true when any axis has length 0. -/
def DF.isEmpty (df : DF) : Bool := df.rows.isEmpty || df.cols.isEmpty

/-- `df['open_time'].max()`: defined (`some`) only when the `'open_time'`
column exists and the frame has rows; accessing a missing column is a
`KeyError` in Python, modelled as `none`. -/
def DF.openTimeMax (df : DF) : Option Nat :=
  if "open_time" ∈ df.cols then (df.rows.map Candle.open_time).max? else none

/-- The parameters of one `requests.get` call issued by `get_batch`. -/
structure Params where
  symbol : String
  interval : String
  start_time : Nat
  limit : Nat
deriving DecidableEq, Repr

/-- The outcome of one attempted HTTP request: one of the three transient
exceptions caught by `get_batch`, or a response with a status code and a
parsed JSON row list. -/
inductive NetOutcome where
  | connError
  | timeoutErr
  | connReset
  | resp (status : Nat) (rows : List Candle)
deriving DecidableEq, Repr

/-- The result of `get_batch`: `ok df cooldowns requests` when a response was
eventually obtained (`cooldowns` counts the 5-minute sleeps taken, `requests`
is the trace of parameter sets issued, in order); `hang requests` when the
outcome stream ran out while still retrying (modelling unbounded retry that
has not yet returned). -/
inductive FetchRes where
  | ok (df : DF) (cooldowns : Nat) (requests : List Params)
  | hang (requests : List Params)
deriving DecidableEq, Repr

/-- The trace of requests issued by a `get_batch` run. -/
def FetchRes.requests : FetchRes → List Params
  | .ok _ _ reqs => reqs
  | .hang reqs => reqs

/-- `get_batch` from `main.py`, over a stream of network outcomes.  Each of
the three transient exceptions sleeps (counted) and retries the identical
request; a status-200 response is parsed into a frame with columns `LABELS`;
any other status returns `pd.DataFrame([])`. -/
def get_batch (p : Params) : List NetOutcome → FetchRes
  | [] => .hang []
  | o :: os =>
    match o with
    | .connError =>
      match get_batch p os with
      | .ok df n reqs => .ok df (n + 1) (p :: reqs)
      | .hang reqs => .hang (p :: reqs)
    | .timeoutErr =>
      match get_batch p os with
      | .ok df n reqs => .ok df (n + 1) (p :: reqs)
      | .hang reqs => .hang (p :: reqs)
    | .connReset =>
      match get_batch p os with
      | .ok df n reqs => .ok df (n + 1) (p :: reqs)
      | .hang reqs => .hang (p :: reqs)
    | .resp status rows =>
      if status = 200 then .ok ⟨LABELS, rows⟩ 0 [p]
      else .ok DF.emptyFrame 0 [p]

/-- Insert a candle into a list sorted ascending by `open_time` (stable). -/
def insertByTime (c : Candle) : List Candle → List Candle
  | [] => [c]
  | d :: ds =>
    if c.open_time ≤ d.open_time then c :: d :: ds else d :: insertByTime c ds

/-- Stable insertion sort ascending by `open_time`. -/
def sortByTime : List Candle → List Candle
  | [] => []
  | c :: cs => insertByTime c (sortByTime cs)

/-- Drop rows whose `open_time` was already seen, keeping the first
occurrence. -/
def dedupSeen (seen : List Nat) : List Candle → List Candle
  | [] => []
  | c :: cs =>
    if c.open_time ∈ seen then dedupSeen seen cs
    else c :: dedupSeen (c.open_time :: seen) cs

/-- Drop later rows whose `open_time` already occurred, keeping the first
occurrence. -/
def dedupByTime (l : List Candle) : List Candle := dedupSeen [] l

/-- Modelled from the spec: `preprocessing.quick_clean` is imported by
`main.py` but `preprocessing.py` is not part of the given sources.  The spec's
Cleaning routine interface is `clean(rows) -> rows`, a pure function that
sorts ascending by `open_time` and removes duplicate `open_time` keeping one
deterministic occurrence (here: the first after the stable sort). -/
def quick_clean (rows : List Candle) : List Candle :=
  dedupByTime (sortByTime rows)

/-- Result of the pagination `while` loop of `all_candles_to_csv`:
`done appended last calls` on normal exit (`appended` are the batches added to
`batches` after the prior-file frame, `last` the final cursor, `calls` the
`startTime` values of the fetch calls issued, in order); `keyErr` if
`new_batch['open_time'].max()` was evaluated on a frame without that column (a
Python `KeyError`); `spin` when the fuel ran out (the Python loop would still
be running). -/
inductive LoopRes where
  | done (appended : List DF) (last : Nat) (calls : List Nat)
  | keyErr (calls : List Nat)
  | spin (calls : List Nat)
deriving DecidableEq, Repr

/-- The fetch-call trace of a loop result. -/
def LoopRes.calls : LoopRes → List Nat
  | .done _ _ cs => cs
  | .keyErr cs => cs
  | .spin cs => cs

/-- Whether the loop raised the modelled `KeyError`. -/
def LoopRes.isKeyErr : LoopRes → Bool
  | .keyErr _ => true
  | _ => false

/-- The pagination loop of `all_candles_to_csv` (lines 112-143 of `main.py`),
fuel-indexed.  `prev` is `previous_timestamp` (`none` initially, Python
`None`), `last` is `last_timestamp`.  Faithful to the source: the `while`
condition `previous_timestamp != last_timestamp` is checked first, then the
`last_timestamp >= now` break, then the fetch, the `.empty` break, the cursor
update to the batch's maximum `open_time`, the no-progress break, and finally
the append. -/
def merge_loop (fetch : Nat → DF) (now : Nat) :
    Nat → Option Nat → Nat → LoopRes
  | 0, _, _ => .spin []
  | fuel + 1, prev, last =>
    if prev = some last then .done [] last []
    else if now ≤ last then .done [] last []
    else
      let nb := fetch (last + 1)
      if nb.isEmpty then .done [] last [last + 1]
      else
        match nb.openTimeMax with
        | none => .keyErr [last + 1]
        | some m =>
          if last = m then .done [] m [last + 1]
          else
            match merge_loop fetch now fuel (some last) m with
            | .done app lst cs => .done (nb :: app) lst ((last + 1) :: cs)
            | .keyErr cs => .keyErr ((last + 1) :: cs)
            | .spin cs => .spin ((last + 1) :: cs)

/-- The Load step of `all_candles_to_csv`: `none` disk means
`FileNotFoundError` (caught: empty prior frame, cursor 0); a present file
yields its rows and the maximum `open_time` present.  A present file with no
rows gives a pandas `NaN` cursor, outside the integer model: `none`. -/
def load_series : Option (List Candle) → Option (List Candle × Nat)
  | none => some ([], 0)
  | some rows =>
    match (rows.map Candle.open_time).max? with
    | some m => some (rows, m)
    | none => none

/-- Result of one `all_candles_to_csv` run: `done written ret calls appended`
where `written` is `some` of the new file content iff the file was rewritten,
`ret` is the returned row count, `calls` the fetch-call trace and `appended`
the batches appended during pagination; `keyErr` / `spin` propagate from the
loop; `nanCursor` marks the unmodelled present-but-empty-file case. -/
inductive RunRes where
  | done (written : Option (List Candle)) (ret : Int) (calls : List Nat)
      (appended : List DF)
  | keyErr (calls : List Nat)
  | spin (calls : List Nat)
  | nanCursor
deriving DecidableEq, Repr

/-- The fetch-call trace of a run result. -/
def RunRes.calls : RunRes → List Nat
  | .done _ _ cs _ => cs
  | .keyErr cs => cs
  | .spin cs => cs
  | .nanCursor => []

/-- Whether the run raised the modelled `KeyError`. -/
def RunRes.isKeyErr : RunRes → Bool
  | .keyErr _ => true
  | _ => false

/-- `all_candles_to_csv` from `main.py`: Load, paginate, concatenate the prior
rows with all appended batches, clean, and write back only when
`len(batches) > 1`, returning `len(df.index) - old_lines` in that case and `0`
otherwise. -/
def all_candles_to_csv (disk : Option (List Candle)) (fetch : Nat → DF)
    (now : Nat) (fuel : Nat) : RunRes :=
  match load_series disk with
  | none => .nanCursor
  | some (rows0, last0) =>
    let old_lines := rows0.length
    match merge_loop fetch now fuel none last0 with
    | .keyErr cs => .keyErr cs
    | .spin cs => .spin cs
    | .done app _ cs =>
      let df := quick_clean (rows0 ++ (app.map DF.rows).flatten)
      if app.length + 1 > 1 then
        .done (some df) ((df.length : Int) - (old_lines : Int)) cs app
      else .done none 0 cs app

/-- `all_candles_to_csv` with the wall clock made explicit as a stream of
readings: the source samples `time.time()*1000` exactly once, before the loop,
so only reading 0 is ever consumed. -/
def all_candles_clocked (clock : Nat → Nat) (disk : Option (List Candle))
    (fetch : Nat → DF) (fuel : Nat) : RunRes :=
  all_candles_to_csv disk fetch (clock 0) fuel

/-! ## Concrete values used by witnesses -/

/-- A concrete parameter set for witnesses. -/
def wParams : Params := ⟨"ETHBTC", "1m", 1, 1000⟩

/-- A concrete one-row batch whose maximum `open_time` is 50. -/
def wBatch50 : DF := ⟨LABELS, [⟨50, []⟩]⟩

/-- A prior file whose rows share an `open_time`: cleaning shrinks it. -/
def cexRows : List Candle := [⟨1000, []⟩, ⟨1000, []⟩]

/-- The mocked upstream of the spec's concrete example: `start_time` 1001
returns rows with `open_time` 2000 and 3000, anything else is empty. -/
def fetchC2 : Nat → DF := fun t =>
  if t = 1001 then ⟨LABELS, [⟨2000, []⟩, ⟨3000, []⟩]⟩ else DF.emptyFrame

/-! ## Helper lemmas -/

/-- Every request issued during one `get_batch` run carries the same
parameters as the original call: the retries are identical requests. -/
theorem get_batch_requests_const (p : Params) :
    ∀ os : List NetOutcome, ∀ q ∈ (get_batch p os).requests, q = p := by
  intro os
  induction os with
  | nil => simp [get_batch, FetchRes.requests]
  | cons o os ih =>
    cases o with
    | connError =>
      cases h : get_batch p os with
      | ok df n reqs =>
        simp only [get_batch, h, FetchRes.requests, List.mem_cons]
        rintro q (rfl | hq)
        · rfl
        · exact ih q (by simp [h, FetchRes.requests, hq])
      | hang reqs =>
        simp only [get_batch, h, FetchRes.requests, List.mem_cons]
        rintro q (rfl | hq)
        · rfl
        · exact ih q (by simp [h, FetchRes.requests, hq])
    | timeoutErr =>
      cases h : get_batch p os with
      | ok df n reqs =>
        simp only [get_batch, h, FetchRes.requests, List.mem_cons]
        rintro q (rfl | hq)
        · rfl
        · exact ih q (by simp [h, FetchRes.requests, hq])
      | hang reqs =>
        simp only [get_batch, h, FetchRes.requests, List.mem_cons]
        rintro q (rfl | hq)
        · rfl
        · exact ih q (by simp [h, FetchRes.requests, hq])
    | connReset =>
      cases h : get_batch p os with
      | ok df n reqs =>
        simp only [get_batch, h, FetchRes.requests, List.mem_cons]
        rintro q (rfl | hq)
        · rfl
        · exact ih q (by simp [h, FetchRes.requests, hq])
      | hang reqs =>
        simp only [get_batch, h, FetchRes.requests, List.mem_cons]
        rintro q (rfl | hq)
        · rfl
        · exact ih q (by simp [h, FetchRes.requests, hq])
    | resp status rows =>
      simp only [get_batch]
      split <;> simp [FetchRes.requests]

/-- One loop step on a non-empty batch whose maximum equals the cursor before
the call stops immediately, appending nothing. -/
theorem merge_loop_no_progress_step (fetch : Nat → DF) (now fuel last : Nat)
    (prev : Option Nat) (hp : prev ≠ some last) (hn : last < now)
    (hne : (fetch (last + 1)).isEmpty = false)
    (hm : (fetch (last + 1)).openTimeMax = some last) :
    merge_loop fetch now (fuel + 1) prev last =
      .done [] last [last + 1] := by
  have h2 : ¬ now ≤ last := by omega
  simp [merge_loop, hp, h2, hne, hm]

/-- One loop step on an empty batch stops immediately, appending nothing. -/
theorem merge_loop_empty_step (fetch : Nat → DF) (now fuel last : Nat)
    (prev : Option Nat) (hp : prev ≠ some last) (hn : last < now)
    (hf : (fetch (last + 1)).isEmpty = true) :
    merge_loop fetch now (fuel + 1) prev last =
      .done [] last [last + 1] := by
  have h2 : ¬ now ≤ last := by omega
  simp [merge_loop, hp, h2, hf]

/-! ## Claim theorems -/

/-- C1: in any merge run, if a fetched batch is non-empty but its maximum
`open_time` equals the cursor value before the call, the pagination loop stops
immediately without appending that batch; a run whose (first) fetch behaves
this way appends nothing, writes nothing and returns 0. -/
theorem merge_stops_without_append_on_no_progress
    (fetch : Nat → DF) (now fuel last : Nat) (prev : Option Nat)
    (hp : prev ≠ some last) (hn : last < now)
    (hne : (fetch (last + 1)).isEmpty = false)
    (hm : (fetch (last + 1)).openTimeMax = some last) :
    merge_loop fetch now (fuel + 1) prev last = .done [] last [last + 1] ∧
    (∀ rows : List Candle, (rows.map Candle.open_time).max? = some last →
      all_candles_to_csv (some rows) fetch now (fuel + 1) =
        .done none 0 [last + 1] []) := by
  refine ⟨merge_loop_no_progress_step fetch now fuel last prev hp hn hne hm, ?_⟩
  intro rows hrows
  have hloop := merge_loop_no_progress_step fetch now fuel last none
    (by simp) hn hne hm
  simp [all_candles_to_csv, load_series, hrows, hloop]

/-- C1 witness: a concrete instance of the no-progress stop. -/
theorem merge_stops_without_append_witness :
    merge_loop (fun _ => wBatch50) 100 1 none 50 =
        LoopRes.done [] 50 [51] ∧
    all_candles_to_csv (some [⟨50, []⟩]) (fun _ => wBatch50) 100 1 =
        RunRes.done none 0 [51] [] := by
  have h := merge_stops_without_append_on_no_progress (fun _ => wBatch50)
    100 0 50 none (by decide) (by decide) (by decide) (by decide)
  exact ⟨h.1, h.2 [⟨50, []⟩] (by decide)⟩

/-- C4: a completed HTTP request with a non-200 status makes `get_batch`
return the empty frame at once -- no retry (zero cooldowns, a single request,
the rest of the outcome stream untouched) and no exception (the result is
`ok`) -- and the merge loop treats an empty fetch result as a normal stop
condition. -/
theorem get_batch_non_ok_empty_and_stop
    (p : Params) (status : Nat) (rows : List Candle) (os : List NetOutcome)
    (hs : status ≠ 200)
    (fetch : Nat → DF) (now fuel last : Nat) (prev : Option Nat)
    (hp : prev ≠ some last) (hn : last < now)
    (hf : (fetch (last + 1)).isEmpty = true) :
    get_batch p (NetOutcome.resp status rows :: os) =
        .ok DF.emptyFrame 0 [p] ∧
    merge_loop fetch now (fuel + 1) prev last = .done [] last [last + 1] := by
  constructor
  · simp [get_batch, hs]
  · exact merge_loop_empty_step fetch now fuel last prev hp hn hf

/-- C4 witness: a concrete 429 response and a concrete empty-batch stop. -/
theorem get_batch_non_ok_witness :
    get_batch wParams [NetOutcome.resp 429 []] =
        FetchRes.ok DF.emptyFrame 0 [wParams] ∧
    merge_loop (fun _ => DF.emptyFrame) 100 1 none 0 =
        LoopRes.done [] 0 [1] :=
  get_batch_non_ok_empty_and_stop wParams 429 [] [] (by decide)
    (fun _ => DF.emptyFrame) 100 0 0 none (by decide) (by decide) (by decide)

/-- C5: each of the three transient failures (connection error, timeout,
connection reset) is recovered inside `get_batch`: after one cooldown the
identical request is retried, and when the retry succeeds the valid batch is
returned; moreover every request of any `get_batch` run carries the original
parameters (the retries are identical), and no transient failure is ever
surfaced to the caller. -/
theorem get_batch_transient_retry
    (p : Params) (rows : List Candle) (os : List NetOutcome) (e : NetOutcome)
    (he : e = NetOutcome.connError ∨ e = NetOutcome.timeoutErr ∨
          e = NetOutcome.connReset) :
    get_batch p (e :: NetOutcome.resp 200 rows :: os) =
        .ok ⟨LABELS, rows⟩ 1 [p, p] ∧
    (∀ os2 : List NetOutcome, ∀ q ∈ (get_batch p os2).requests, q = p) := by
  refine ⟨?_, get_batch_requests_const p⟩
  rcases he with rfl | rfl | rfl <;> simp [get_batch, FetchRes.requests]

/-- C5 witness: one connection error then a 200 response yields the valid
batch after one cooldown, with both requests identical. -/
theorem get_batch_transient_retry_witness :
    get_batch wParams [NetOutcome.connError, NetOutcome.resp 200 [⟨7, []⟩]] =
      FetchRes.ok ⟨LABELS, [⟨7, []⟩]⟩ 1 [wParams, wParams] :=
  (get_batch_transient_retry wParams [⟨7, []⟩] [] NetOutcome.connError
    (Or.inl rfl)).1

/-- The Load step determines the prior rows: they are exactly the disk
content, or `[]` when the file is absent. -/
theorem load_series_rows (disk : Option (List Candle)) (rows0 : List Candle)
    (l : Nat) (h : load_series disk = some (rows0, l)) :
    rows0 = disk.getD [] := by
  cases disk with
  | none =>
    simp only [load_series, Option.some.injEq, Prod.mk.injEq] at h
    simp [← h.1]
  | some rows =>
    simp only [load_series] at h
    cases hm : (rows.map Candle.open_time).max? with
    | none => rw [hm] at h; simp at h
    | some m =>
      rw [hm] at h
      simp only [Option.some.injEq, Prod.mk.injEq] at h
      simp [← h.1]

/-- Inversion of a completed `all_candles_to_csv` run: it decomposes into a
successful load, a completed pagination loop, and either the no-append branch
(`written = none`, return 0) or the write branch (`written` is the cleaned
concatenation of the prior rows and the appended batches, and the return value
is its length minus the loaded length). -/
theorem all_candles_done_inv (disk : Option (List Candle)) (fetch : Nat → DF)
    (now fuel : Nat) (w : Option (List Candle)) (ret : Int) (cs : List Nat)
    (app : List DF)
    (h : all_candles_to_csv disk fetch now fuel = .done w ret cs app) :
    ∃ last0 lst, load_series disk = some (disk.getD [], last0) ∧
      merge_loop fetch now fuel none last0 = .done app lst cs ∧
      ((app = [] ∧ w = none ∧ ret = 0) ∨
       (app ≠ [] ∧
        w = some (quick_clean ((disk.getD []) ++ (app.map DF.rows).flatten)) ∧
        ret = ((quick_clean ((disk.getD []) ++
                 (app.map DF.rows).flatten)).length : Int) -
              ((disk.getD []).length : Int))) := by
  unfold all_candles_to_csv at h
  cases hl : load_series disk with
  | none => rw [hl] at h; simp at h
  | some pr =>
    obtain ⟨rows0, last0⟩ := pr
    have hrows : rows0 = disk.getD [] := load_series_rows disk rows0 last0 hl
    rw [hl] at h
    simp only at h
    cases hm : merge_loop fetch now fuel none last0 with
    | keyErr cs2 => rw [hm] at h; simp at h
    | spin cs2 => rw [hm] at h; simp at h
    | done app2 lst cs2 =>
      rw [hm] at h
      simp only at h
      refine ⟨last0, lst, by rw [← hrows], ?_, ?_⟩
      · cases app2 with
        | nil =>
          rw [if_neg (by simp)] at h
          simp only [RunRes.done.injEq] at h
          rw [hm, ← h.2.2.2, ← h.2.2.1]
        | cons b bs =>
          rw [if_pos (by simp)] at h
          simp only [RunRes.done.injEq] at h
          rw [hm, ← h.2.2.2, ← h.2.2.1]
      · cases app2 with
        | nil =>
          rw [if_neg (by simp)] at h
          simp only [RunRes.done.injEq] at h
          left
          exact ⟨by rw [← h.2.2.2], by rw [← h.1], by rw [← h.2.1]⟩
        | cons b bs =>
          rw [if_pos (by simp)] at h
          simp only [RunRes.done.injEq] at h
          right
          refine ⟨by rw [← h.2.2.2]; simp, ?_, ?_⟩
          · rw [← h.1, hrows, ← h.2.2.2]
          · rw [← h.2.1, hrows, ← h.2.2.2]

/-- C3: the series file is written iff at least one new batch was appended
during pagination; on a no-append run nothing is written (the prior on-disk
content stays untouched) and the run returns 0. -/
theorem series_file_written_iff_batch_appended
    (disk : Option (List Candle)) (fetch : Nat → DF) (now fuel : Nat)
    (w : Option (List Candle)) (ret : Int) (cs : List Nat) (app : List DF)
    (h : all_candles_to_csv disk fetch now fuel = .done w ret cs app) :
    (w.isSome = true ↔ app ≠ []) ∧ (app = [] → w = none ∧ ret = 0) := by
  obtain ⟨last0, lst, -, -, hbranch⟩ :=
    all_candles_done_inv disk fetch now fuel w ret cs app h
  rcases hbranch with ⟨ha, hw, hr⟩ | ⟨ha, hw, hr⟩
  · subst ha hw hr
    simp
  · constructor
    · rw [hw]; simp [ha]
    · intro h0; exact absurd h0 ha

/-- C3 witness: a run whose only fetch returns an empty batch appends nothing
and writes nothing. -/
theorem series_file_written_iff_witness :
    ((none : Option (List Candle)).isSome = true ↔ ([] : List DF) ≠ []) ∧
    (([] : List DF) = [] → (none : Option (List Candle)) = none ∧
      (0 : Int) = 0) :=
  series_file_written_iff_batch_appended none (fun _ => DF.emptyFrame) 5 2
    none 0 [1] [] (by decide)

/-- C7 (amended): whenever the file is rewritten, the returned value equals
the cleaned concatenated working set's row count minus the row count loaded at
the Load step; on a run where no batch was appended the function returns the
constant 0 instead of that difference. -/
theorem rows_added_accounting
    (disk : Option (List Candle)) (fetch : Nat → DF) (now fuel : Nat)
    (w : Option (List Candle)) (ret : Int) (cs : List Nat) (app : List DF)
    (h : all_candles_to_csv disk fetch now fuel = .done w ret cs app) :
    (∀ d, w = some d →
       d = quick_clean ((disk.getD []) ++ (app.map DF.rows).flatten) ∧
       ret = (d.length : Int) - ((disk.getD []).length : Int)) ∧
    (app = [] → ret = 0) := by
  obtain ⟨last0, lst, -, -, hbranch⟩ :=
    all_candles_done_inv disk fetch now fuel w ret cs app h
  rcases hbranch with ⟨ha, hw, hr⟩ | ⟨ha, hw, hr⟩
  · subst ha hw hr
    exact ⟨fun d hd => by simp at hd, fun _ => rfl⟩
  · refine ⟨fun d hd => ?_, fun h0 => absurd h0 ha⟩
    rw [hw] at hd
    obtain rfl : quick_clean ((disk.getD []) ++ (app.map DF.rows).flatten) = d :=
      Option.some.inj hd
    exact ⟨rfl, hr⟩

/-- C7 witness: a two-page run writes the cleaned set and returns its length
minus the loaded length. -/
theorem rows_added_accounting_witness :
    ([⟨1, []⟩] : List Candle) =
      quick_clean (((none : Option (List Candle)).getD []) ++
        (([⟨LABELS, [⟨1, []⟩]⟩] : List DF).map DF.rows).flatten) ∧
    (1 : Int) = (([⟨1, []⟩] : List Candle).length : Int) -
      (((none : Option (List Candle)).getD []).length : Int) :=
  (rows_added_accounting none (fun t => if t = 1 then ⟨LABELS, [⟨1, []⟩]⟩
      else DF.emptyFrame) 100 3
    (some [⟨1, []⟩]) 1 [1, 2] [⟨LABELS, [⟨1, []⟩]⟩] (by decide)).1
    [⟨1, []⟩] rfl

/-- C7 counterexample: with a prior file of two rows sharing `open_time` 1000
and an upstream that returns nothing, the run appends no batch and returns 0,
while the spec's definition (cleaned row count − loaded row count) evaluates
to 1 − 2 = −1 ≠ 0. -/
theorem rows_added_accounting_cex :
    all_candles_to_csv (some cexRows) (fun _ => DF.emptyFrame) 2000 3 =
      RunRes.done none 0 [1001] [] ∧
    (quick_clean cexRows).length = 1 ∧ cexRows.length = 2 := by decide

/-- The first fetch of a loop entered with a live cursor is issued at
`cursor + 1`, whatever happens afterwards. -/
theorem merge_loop_first_call (fetch : Nat → DF) (now fuel last : Nat)
    (prev : Option Nat) (hp : prev ≠ some last) (hn : last < now) :
    (merge_loop fetch now (fuel + 1) prev last).calls.head? =
      some (last + 1) := by
  have h2 : ¬ now ≤ last := by omega
  simp only [merge_loop, if_neg hp, if_neg h2]
  split
  · simp [LoopRes.calls]
  · cases hx : (fetch (last + 1)).openTimeMax with
    | none => simp [LoopRes.calls]
    | some m =>
      simp only
      split
      · simp [LoopRes.calls]
      · cases merge_loop fetch now fuel (some last) m <;> simp [LoopRes.calls]

/-- The fetch-call trace of a run is the trace of its pagination loop. -/
theorem all_candles_calls (disk : Option (List Candle)) (fetch : Nat → DF)
    (now fuel : Nat) (rows0 : List Candle) (last0 : Nat)
    (hl : load_series disk = some (rows0, last0)) :
    (all_candles_to_csv disk fetch now fuel).calls =
      (merge_loop fetch now fuel none last0).calls := by
  simp only [all_candles_to_csv, hl]
  cases merge_loop fetch now fuel none last0 with
  | done app lst cs =>
    simp only
    split <;> simp [RunRes.calls, LoopRes.calls]
  | keyErr cs => simp [RunRes.calls, LoopRes.calls]
  | spin cs => simp [RunRes.calls, LoopRes.calls]

/-- C6: a missing series file is not an error: the run starts from an empty
prior series with cursor 0, so its first fetch is issued with
`start_time = 1`; a present (non-empty) file sets the cursor to the maximum
`open_time` it contains. -/
theorem missing_file_defaults (fetch : Nat → DF) (now fuel : Nat)
    (rows : List Candle) (m : Nat) (h0 : 0 < now)
    (hm : (rows.map Candle.open_time).max? = some m) :
    load_series none = some ([], 0) ∧
    (all_candles_to_csv none fetch now (fuel + 1)).calls.head? = some 1 ∧
    load_series (some rows) = some (rows, m) := by
  refine ⟨rfl, ?_, by simp [load_series, hm]⟩
  rw [all_candles_calls none fetch now (fuel + 1) [] 0 rfl]
  exact merge_loop_first_call fetch now fuel 0 none (by simp) h0

/-- C6 witness: a concrete missing-file run fetches first at `start_time` 1,
and a concrete present file sets the cursor to its maximum `open_time`. -/
theorem missing_file_defaults_witness :
    load_series none = some ([], 0) ∧
    (all_candles_to_csv none (fun _ => DF.emptyFrame) 3 1).calls.head? =
      some 1 ∧
    load_series (some [⟨5, []⟩]) = some ([⟨5, []⟩], 5) :=
  missing_file_defaults (fun _ => DF.emptyFrame) 3 0 [⟨5, []⟩] 5 (by decide)
    (by decide)

/-- C8: a run started from a persisted series whose fetch at the cursor
returns no data newer than the series (an empty batch, or only the
already-persisted latest candle) writes nothing -- leaving the file
unchanged -- and returns 0.  This is the second run of the idempotence
property: its prior file is whatever the first run persisted. -/
theorem second_run_no_new_data (rows : List Candle) (m : Nat)
    (fetch : Nat → DF) (now fuel : Nat)
    (hm : (rows.map Candle.open_time).max? = some m)
    (h : (fetch (m + 1)).isEmpty = true ∨
         ((fetch (m + 1)).isEmpty = false ∧
          (fetch (m + 1)).openTimeMax = some m)) :
    all_candles_to_csv (some rows) fetch now (fuel + 1) =
      RunRes.done none 0 (if now ≤ m then [] else [m + 1]) [] := by
  have hl : load_series (some rows) = some (rows, m) := by
    simp [load_series, hm]
  by_cases hn : now ≤ m
  · have hloop : merge_loop fetch now (fuel + 1) none m = .done [] m [] := by
      simp [merge_loop, hn]
    simp [all_candles_to_csv, hl, hloop, hn]
  · have hmn : m < now := by omega
    have hloop : merge_loop fetch now (fuel + 1) none m =
        .done [] m [m + 1] := by
      rcases h with he | ⟨hne, hmx⟩
      · exact merge_loop_empty_step fetch now fuel m none (by simp) hmn he
      · exact merge_loop_no_progress_step fetch now fuel m none (by simp) hmn
          hne hmx
    simp [all_candles_to_csv, hl, hloop, hn]

/-- C8 witness: a concrete no-new-data run writes nothing and returns 0. -/
theorem second_run_no_new_data_witness :
    all_candles_to_csv (some [⟨5, []⟩]) (fun _ => DF.emptyFrame) 10 1 =
      RunRes.done none 0 (if 10 ≤ 5 then [] else [6]) [] :=
  second_run_no_new_data [⟨5, []⟩] 5 (fun _ => DF.emptyFrame) 10 0 (by decide)
    (Or.inl rfl)

/-- C9: the wall clock is sampled exactly once, before the loop -- two clocks
agreeing on their first reading give identical runs -- and once the cursor is
at or past that sampled value no fetch is issued: a run loaded at
`cursor ≥ now` makes no call, and any loop entry with `now ≤ cursor` stops at
once with no call. -/
theorem wall_clock_sampled_once (c1 c2 : Nat → Nat)
    (disk : Option (List Candle)) (fetch : Nat → DF) (fuel : Nat)
    (rows : List Candle) (m : Nat) (h12 : c1 0 = c2 0)
    (hm : (rows.map Candle.open_time).max? = some m) (hge : c1 0 ≤ m) :
    all_candles_clocked c1 disk fetch fuel =
      all_candles_clocked c2 disk fetch fuel ∧
    (all_candles_clocked c1 (some rows) fetch (fuel + 1)).calls = [] ∧
    (∀ (f : Nat → DF) (n lastT fl : Nat) (prevT : Option Nat), n ≤ lastT →
      merge_loop f n (fl + 1) prevT lastT = .done [] lastT []) := by
  have hguard : ∀ (f : Nat → DF) (n lastT fl : Nat) (prevT : Option Nat),
      n ≤ lastT → merge_loop f n (fl + 1) prevT lastT = .done [] lastT [] := by
    intro f n lastT fl prevT hle
    by_cases hp : prevT = some lastT
    · simp [merge_loop, hp]
    · simp [merge_loop, hp, hle]
  refine ⟨by unfold all_candles_clocked; rw [h12], ?_, hguard⟩
  have hl : load_series (some rows) = some (rows, m) := by
    simp [load_series, hm]
  unfold all_candles_clocked
  rw [all_candles_calls (some rows) fetch (c1 0) (fuel + 1) rows m hl,
      hguard fetch (c1 0) m fuel none hge]
  rfl

/-- C9 witness: two clocks with the same first reading give the same run, and
a run whose loaded cursor is already past the sampled time makes no call. -/
theorem wall_clock_sampled_once_witness :
    all_candles_clocked (fun _ => 3) none (fun _ => DF.emptyFrame) 0 =
      all_candles_clocked (fun n => n + 3) none (fun _ => DF.emptyFrame) 0 ∧
    (all_candles_clocked (fun _ => 3) (some [⟨5, []⟩])
        (fun _ => DF.emptyFrame) 1).calls = [] := by
  have h := wall_clock_sampled_once (fun _ => 3) (fun n => n + 3) none
    (fun _ => DF.emptyFrame) 0 [⟨5, []⟩] 5 rfl (by decide) (by decide)
  exact ⟨h.1, h.2.1⟩

/-- Every frame `get_batch` returns is either empty (the no-column failure
frame, or a 200 response with no rows) or carries the `'open_time'` column. -/
theorem get_batch_ok_shape (p : Params) :
    ∀ (os : List NetOutcome) (df : DF) (n : Nat) (reqs : List Params),
      get_batch p os = .ok df n reqs →
      df.isEmpty = true ∨ "open_time" ∈ df.cols := by
  intro os
  induction os with
  | nil => intro df n reqs h; simp [get_batch] at h
  | cons o os ih =>
    intro df n reqs h
    cases o with
    | connError =>
      simp only [get_batch] at h
      cases hg : get_batch p os with
      | ok df2 n2 r2 =>
        rw [hg] at h
        simp only [FetchRes.ok.injEq] at h
        exact h.1 ▸ ih df2 n2 r2 hg
      | hang r2 => rw [hg] at h; simp at h
    | timeoutErr =>
      simp only [get_batch] at h
      cases hg : get_batch p os with
      | ok df2 n2 r2 =>
        rw [hg] at h
        simp only [FetchRes.ok.injEq] at h
        exact h.1 ▸ ih df2 n2 r2 hg
      | hang r2 => rw [hg] at h; simp at h
    | connReset =>
      simp only [get_batch] at h
      cases hg : get_batch p os with
      | ok df2 n2 r2 =>
        rw [hg] at h
        simp only [FetchRes.ok.injEq] at h
        exact h.1 ▸ ih df2 n2 r2 hg
      | hang r2 => rw [hg] at h; simp at h
    | resp status rows =>
      simp only [get_batch] at h
      by_cases hs : status = 200
      · rw [if_pos hs] at h
        simp only [FetchRes.ok.injEq] at h
        right
        rw [← h.1]
        simp [LABELS]
      · rw [if_neg hs] at h
        simp only [FetchRes.ok.injEq] at h
        left
        rw [← h.1]
        rfl

/-- Under a fetch oracle whose frames are empty or carry the `'open_time'`
column, the pagination loop never evaluates the column maximum on a frame
without the column. -/
theorem merge_loop_no_key_failure (fetch : Nat → DF) (now : Nat)
    (hf : ∀ t, (fetch t).isEmpty = true ∨ "open_time" ∈ (fetch t).cols) :
    ∀ (fuel : Nat) (prev : Option Nat) (last : Nat),
      (merge_loop fetch now fuel prev last).isKeyErr = false := by
  intro fuel
  induction fuel with
  | zero => intro prev last; rfl
  | succ f ih =>
    intro prev last
    by_cases h1 : prev = some last
    · simp [merge_loop, h1, LoopRes.isKeyErr]
    · by_cases h2 : now ≤ last
      · simp [merge_loop, h1, h2, LoopRes.isKeyErr]
      · by_cases h3 : (fetch (last + 1)).isEmpty = true
        · simp [merge_loop, h1, h2, h3, LoopRes.isKeyErr]
        · cases hx : (fetch (last + 1)).openTimeMax with
          | none =>
            exfalso
            rcases hf (last + 1) with he | hc
            · exact h3 he
            · rw [DF.openTimeMax, if_pos hc] at hx
              cases hr : (fetch (last + 1)).rows with
              | nil =>
                exact h3 (by simp [DF.isEmpty, hr])
              | cons a l => rw [hr] at hx; simp at hx
          | some m =>
            by_cases h4 : last = m
            · simp only [merge_loop, if_neg h1, if_neg h2]
              rw [if_neg h3]
              simp only [hx]
              rw [if_pos h4]
              rfl
            · have hrec := ih (some last) m
              simp only [merge_loop, if_neg h1, if_neg h2]
              rw [if_neg h3]
              simp only [hx]
              rw [if_neg h4]
              cases hr : merge_loop fetch now f (some last) m with
              | done a b c => simp [LoopRes.isKeyErr]
              | keyErr c =>
                rw [hr] at hrec
                simp [LoopRes.isKeyErr] at hrec
              | spin c => simp [LoopRes.isKeyErr]

/-- C10: `new_batch['open_time'].max()` is only evaluated after the
batch passed the non-empty check, so the access is always well-defined:
every `get_batch` result is empty or carries the `'open_time'` column,
accessing the column on the non-OK failure frame would itself fail
(`openTimeMax = none`), and under any such oracle a whole run never raises
the modelled `KeyError`. -/
theorem open_time_access_guarded (fetch : Nat → DF)
    (disk : Option (List Candle)) (now fuel : Nat)
    (hf : ∀ t, (fetch t).isEmpty = true ∨ "open_time" ∈ (fetch t).cols) :
    (∀ (p : Params) (os : List NetOutcome) (df : DF) (n : Nat)
       (reqs : List Params), get_batch p os = .ok df n reqs →
       df.isEmpty = true ∨ "open_time" ∈ df.cols) ∧
    DF.openTimeMax DF.emptyFrame = none ∧
    (all_candles_to_csv disk fetch now fuel).isKeyErr = false := by
  refine ⟨fun p => get_batch_ok_shape p, rfl, ?_⟩
  cases hl : load_series disk with
  | none => simp [all_candles_to_csv, hl, RunRes.isKeyErr]
  | some pr =>
    obtain ⟨rows0, last0⟩ := pr
    have hloop := merge_loop_no_key_failure fetch now hf fuel none last0
    cases hm : merge_loop fetch now fuel none last0 with
    | done app lst cs =>
      simp only [all_candles_to_csv, hl, hm]
      split <;> rfl
    | keyErr cs => rw [hm] at hloop; simp [LoopRes.isKeyErr] at hloop
    | spin cs => simp [all_candles_to_csv, hl, hm, RunRes.isKeyErr]

/-- C10 witness: a concrete run over an oracle of well-formed frames raises
no key failure. -/
theorem open_time_access_guarded_witness :
    DF.openTimeMax DF.emptyFrame = none ∧
    (all_candles_to_csv none (fun _ => DF.emptyFrame) 5 2).isKeyErr =
      false := by
  have h := open_time_access_guarded (fun _ => DF.emptyFrame) none 5 2
    (fun t => Or.inl rfl)
  exact ⟨h.2.1, h.2.2⟩

/-- One loop step that appends: a non-empty batch with a fresh maximum is
appended, the cursor advances to that maximum, and the loop continues. -/
theorem merge_loop_append_step (fetch : Nat → DF) (now fuel last m : Nat)
    (prev : Option Nat) (hp : prev ≠ some last) (hn : last < now)
    (hne : (fetch (last + 1)).isEmpty = false)
    (hmx : (fetch (last + 1)).openTimeMax = some m) (hlm : last ≠ m) :
    merge_loop fetch now (fuel + 1) prev last =
      match merge_loop fetch now fuel (some last) m with
      | .done app lst cs => .done (fetch (last + 1) :: app) lst
          ((last + 1) :: cs)
      | .keyErr cs => .keyErr ((last + 1) :: cs)
      | .spin cs => .spin ((last + 1) :: cs) := by
  have h2 : ¬ now ≤ last := by omega
  simp only [merge_loop, if_neg hp, if_neg h2]
  rw [if_neg (by simp [hne])]
  simp only [hmx]
  rw [if_neg hlm]

/-- C2: with a prior file holding the single row at `open_time` 1000, a first
fetch at `start_time` 1001 returning rows at 2000 and 3000, and the next
fetch at 3001 returning empty, the run terminates with the persisted series
[1000, 2000, 3000] in ascending order, returns 2 rows added, and rewrites the
file. -/
theorem concrete_example_run (now fuel : Nat) (h : 3000 < now) :
    all_candles_to_csv (some [⟨1000, []⟩]) fetchC2 now (fuel + 2) =
      RunRes.done (some [⟨1000, []⟩, ⟨2000, []⟩, ⟨3000, []⟩]) 2 [1001, 3001]
        [⟨LABELS, [⟨2000, []⟩, ⟨3000, []⟩]⟩] := by
  have hinner : merge_loop fetchC2 now (fuel + 1) (some 1000) 3000 =
      .done [] 3000 [3001] :=
    merge_loop_empty_step fetchC2 now fuel 3000 (some 1000) (by decide)
      (by omega) (by decide)
  have houter : merge_loop fetchC2 now (fuel + 1 + 1) none 1000 =
      .done [⟨LABELS, [⟨2000, []⟩, ⟨3000, []⟩]⟩] 3000 [1001, 3001] := by
    rw [merge_loop_append_step fetchC2 now (fuel + 1) 1000 3000 none
      (by decide) (by omega) (by decide) (by decide) (by decide)]
    rw [hinner]
    decide
  have hl : load_series (some [⟨1000, []⟩]) = some ([⟨1000, []⟩], 1000) := by
    decide
  have hfl : fuel + 2 = fuel + 1 + 1 := rfl
  rw [hfl]
  simp only [all_candles_to_csv, hl, houter]
  decide

/-- C2 witness: the concrete example at wall-clock 4000. -/
theorem concrete_example_run_witness :
    all_candles_to_csv (some [⟨1000, []⟩]) fetchC2 4000 2 =
      RunRes.done (some [⟨1000, []⟩, ⟨2000, []⟩, ⟨3000, []⟩]) 2 [1001, 3001]
        [⟨LABELS, [⟨2000, []⟩, ⟨3000, []⟩]⟩] :=
  concrete_example_run 4000 0 (by decide)
